import Mathlib

/-!
Verification of the FDP packet codec (`src/protocol/src/packet/packet.rs`,
`src/protocol/src/packet/types.rs`): wire vocabulary, flag byte, packet
encode/decode and the SHA-256 integrity hash.

Bytes are modelled as `Nat` values (< 256 on the `u8` domain), byte strings
as `List Nat`, and 32/64-bit arithmetic is done with explicit `% 2^w`.
-/

set_option maxRecDepth 1000000

namespace FDP

/-! ## SHA-256 (FIPS 180-4), the digest used by `sha2::Sha256` in
`Packet::calculate_hash`.  Words are `Nat` values kept below `2^32`. -/

/-- Truncate to a 32-bit word. -/
def w32 (x : Nat) : Nat := x % 4294967296

/-- Rotate the 32-bit word `x` right by `n` positions. -/
def rotr32 (x n : Nat) : Nat := w32 ((x >>> n) ||| (x <<< (32 - n)))

def shaCh (x y z : Nat) : Nat := (x &&& y) ^^^ ((x ^^^ 4294967295) &&& z)

def shaMaj (x y z : Nat) : Nat := (x &&& y) ^^^ (x &&& z) ^^^ (y &&& z)

def bigSigma0 (x : Nat) : Nat := rotr32 x 2 ^^^ rotr32 x 13 ^^^ rotr32 x 22

def bigSigma1 (x : Nat) : Nat := rotr32 x 6 ^^^ rotr32 x 11 ^^^ rotr32 x 25

def smallSigma0 (x : Nat) : Nat := rotr32 x 7 ^^^ rotr32 x 18 ^^^ (x >>> 3)

def smallSigma1 (x : Nat) : Nat := rotr32 x 17 ^^^ rotr32 x 19 ^^^ (x >>> 10)

/-- The 64 SHA-256 round constants. -/
def shaK : List Nat :=
  [1116352408, 1899447441, 3049323471, 3921009573, 961987163,
   1508970993, 2453635748, 2870763221, 3624381080, 310598401,
   607225278, 1426881987, 1925078388, 2162078206, 2614888103,
   3248222580, 3835390401, 4022224774, 264347078, 604807628,
   770255983, 1249150122, 1555081692, 1996064986, 2554220882,
   2821834349, 2952996808, 3210313671, 3336571891, 3584528711,
   113926993, 338241895, 666307205, 773529912, 1294757372,
   1396182291, 1695183700, 1986661051, 2177026350, 2456956037,
   2730485921, 2820302411, 3259730800, 3345764771, 3516065817,
   3600352804, 4094571909, 275423344, 430227734, 506948616,
   659060556, 883997877, 958139571, 1322822218, 1537002063,
   1747873779, 1955562222, 2024104815, 2227730452, 2361852424,
   2428436474, 2756734187, 3204031479, 3329325298]

/-- The SHA-256 initial hash value. -/
def shaH0 : List Nat :=
  [1779033703, 3144134277, 1013904242, 2773480762, 1359893119,
   2600822924, 528734635, 1541459225]

/-- Big-endian byte string (most significant first) of the low `n` bytes of `x`. -/
def toBytesBE : Nat → Nat → List Nat
  | 0, _ => []
  | n + 1, x => toBytesBE n (x >>> 8) ++ [x % 256]

/-- Big-endian value of a byte string (`u32::from_be_bytes` / `u64::from_be_bytes`). -/
def fromBE (l : List Nat) : Nat := l.foldl (fun acc b => acc * 256 + b) 0

/-- SHA-256 message padding: `0x80`, zeros to 56 mod 64, then the 64-bit
big-endian bit length. -/
def shaPad (msg : List Nat) : List Nat :=
  msg ++ [0x80] ++ List.replicate ((119 - msg.length % 64) % 64) 0
      ++ toBytesBE 8 (8 * msg.length)

/-- Split a byte string into 64-byte blocks (fuel-driven so that the kernel
can evaluate it; the fuel is the string length, enough since every step
consumes at least one byte). -/
def blocks64Aux : Nat → List Nat → List (List Nat)
  | 0, _ => []
  | _, [] => []
  | fuel + 1, a :: t => (a :: t).take 64 :: blocks64Aux fuel (t.drop 63)

/-- Split a byte string into 64-byte blocks. -/
def blocks64 (l : List Nat) : List (List Nat) := blocks64Aux l.length l

/-- The 16 initial 32-bit words of a 64-byte block (big-endian). -/
def blockWords (block : List Nat) : List Nat :=
  (List.range 16).map fun i =>
    (block.getD (4 * i) 0) <<< 24 + (block.getD (4 * i + 1) 0) <<< 16
      + (block.getD (4 * i + 2) 0) <<< 8 + block.getD (4 * i + 3) 0

/-- Extend 16 schedule words to 64. -/
def extendSchedule (w : List Nat) : List Nat :=
  (List.range 48).foldl
    (fun acc _ =>
      acc ++ [w32 (smallSigma1 (acc.getD (acc.length - 2) 0) + acc.getD (acc.length - 7) 0
        + smallSigma0 (acc.getD (acc.length - 15) 0) + acc.getD (acc.length - 16) 0)])
    w

/-- One SHA-256 round on the state `[a,b,c,d,e,f,g,h]`. -/
def shaRound (s : List Nat) (k w : Nat) : List Nat :=
  let a := s.getD 0 0
  let b := s.getD 1 0
  let c := s.getD 2 0
  let d := s.getD 3 0
  let e := s.getD 4 0
  let f := s.getD 5 0
  let g := s.getD 6 0
  let h := s.getD 7 0
  let t1 := w32 (h + bigSigma1 e + shaCh e f g + k + w)
  let t2 := w32 (bigSigma0 a + shaMaj a b c)
  [w32 (t1 + t2), a, b, c, w32 (d + t1), e, f, g]

/-- Compress one 64-byte block into the running hash state. -/
def shaCompress (h : List Nat) (block : List Nat) : List Nat :=
  let w := extendSchedule (blockWords block)
  let s := (shaK.zip w).foldl (fun s kw => shaRound s kw.1 kw.2) h
  List.zipWith (fun x y => w32 (x + y)) h s

/-- SHA-256 digest of a byte string, as 32 bytes. -/
def sha256 (msg : List Nat) : List Nat :=
  ((blocks64 (shaPad msg)).foldl shaCompress shaH0).foldr
    (fun word acc => toBytesBE 4 word ++ acc) []

theorem toBytesBE_length (n x : Nat) : (toBytesBE n x).length = n := by
  induction n generalizing x with
  | zero => rfl
  | succ m ih => simp [toBytesBE, ih]

theorem shaRound_length (s : List Nat) (k w : Nat) : (shaRound s k w).length = 8 := by
  rfl

theorem shaRound_foldl_length (l : List (Nat × Nat)) (s : List Nat) (h : s.length = 8) :
    (l.foldl (fun s kw => shaRound s kw.1 kw.2) s).length = 8 := by
  induction l generalizing s with
  | nil => exact h
  | cons a t ih => exact ih _ (shaRound_length _ _ _)

theorem shaCompress_length (h : List Nat) (block : List Nat) (hl : h.length = 8) :
    (shaCompress h block).length = 8 := by
  have hs : ((shaK.zip (extendSchedule (blockWords block))).foldl
      (fun s kw => shaRound s kw.1 kw.2) h).length = 8 :=
    shaRound_foldl_length _ _ hl
  simp [shaCompress, hs, hl]

theorem shaCompress_foldl_length (bs : List (List Nat)) (h : List Nat) (hl : h.length = 8) :
    (bs.foldl shaCompress h).length = 8 := by
  induction bs generalizing h with
  | nil => exact hl
  | cons b t ih => exact ih _ (shaCompress_length _ _ hl)

theorem sha256_length (msg : List Nat) : (sha256 msg).length = 32 := by
  have h8 : ((blocks64 (shaPad msg)).foldl shaCompress shaH0).length = 8 :=
    shaCompress_foldl_length _ _ rfl
  have : ∀ l : List Nat,
      (l.foldr (fun word acc => toBytesBE 4 word ++ acc) []).length = 4 * l.length := by
    intro l
    induction l with
    | nil => rfl
    | cons a t ih => simp [List.foldr, toBytesBE_length, ih]; ring
  rw [sha256, this, h8]

/-! ## Wire vocabulary (`src/protocol/src/packet/types.rs`) -/

/-- `FDP_VERSION: u8 = 1`. -/
def FDP_VERSION : Nat := 1

/-- `Intent`: the closed set of 1-byte operation codes. -/
inductive Intent
  | Ping | Pong | HandshakeInit | HandshakeAck | Close
  | Search | SearchSuggest | FetchDocument | SearchStream
  | DataRequest | DataPush | DataDelta | DataVerify
  | RankingUpdate | RankingRequest
  | CacheQuery | CacheInvalidate
  | Error | Success
  deriving DecidableEq, Repr, Fintype

/-- `Intent::to_u8`: the `#[repr(u8)]` discriminant. -/
def Intent.to_u8 : Intent → Nat
  | .Ping => 0x01
  | .Pong => 0x02
  | .HandshakeInit => 0x03
  | .HandshakeAck => 0x04
  | .Close => 0x05
  | .Search => 0x10
  | .SearchSuggest => 0x11
  | .FetchDocument => 0x12
  | .SearchStream => 0x13
  | .DataRequest => 0x20
  | .DataPush => 0x21
  | .DataDelta => 0x22
  | .DataVerify => 0x23
  | .RankingUpdate => 0x30
  | .RankingRequest => 0x31
  | .CacheQuery => 0x40
  | .CacheInvalidate => 0x41
  | .Error => 0xF0
  | .Success => 0xF1

/-- `Intent::from_u8`. -/
def Intent.from_u8 : Nat → Option Intent
  | 0x01 => some .Ping
  | 0x02 => some .Pong
  | 0x03 => some .HandshakeInit
  | 0x04 => some .HandshakeAck
  | 0x05 => some .Close
  | 0x10 => some .Search
  | 0x11 => some .SearchSuggest
  | 0x12 => some .FetchDocument
  | 0x13 => some .SearchStream
  | 0x20 => some .DataRequest
  | 0x21 => some .DataPush
  | 0x22 => some .DataDelta
  | 0x23 => some .DataVerify
  | 0x30 => some .RankingUpdate
  | 0x31 => some .RankingRequest
  | 0x40 => some .CacheQuery
  | 0x41 => some .CacheInvalidate
  | 0xF0 => some .Error
  | 0xF1 => some .Success
  | _ => none

/-- `Compression`: closed set, values 0-3. -/
inductive Compression
  | None | Lz4 | Zstd | Brotli
  deriving DecidableEq, Repr, Fintype

def Compression.to_u8 : Compression → Nat
  | .None => 0x00
  | .Lz4 => 0x01
  | .Zstd => 0x02
  | .Brotli => 0x03

def Compression.from_u8 : Nat → Option Compression
  | 0x00 => some .None
  | 0x01 => some .Lz4
  | 0x02 => some .Zstd
  | 0x03 => some .Brotli
  | _ => none

/-- `EncryptionLevel`: closed set, values 0-2. -/
inductive EncryptionLevel
  | None | ChaCha20 | Aes256
  deriving DecidableEq, Repr, Fintype

def EncryptionLevel.to_u8 : EncryptionLevel → Nat
  | .None => 0x00
  | .ChaCha20 => 0x01
  | .Aes256 => 0x02

def EncryptionLevel.from_u8 : Nat → Option EncryptionLevel
  | 0x00 => some .None
  | 0x01 => some .ChaCha20
  | 0x02 => some .Aes256
  | _ => none

/-- `Priority(pub u8)`: a plain ordered byte.  `Priority::NORMAL = 128`. -/
def Priority.NORMAL : Nat := 128

/-! ## Constants (`packet.rs`) -/

def HEADER_SIZE : Nat := 36
def HASH_SIZE : Nat := 32
def MIN_PACKET_SIZE : Nat := HEADER_SIZE + HASH_SIZE
def MAX_PAYLOAD_SIZE : Nat := 10485760
def MAX_PACKET_SIZE : Nat := HEADER_SIZE + MAX_PAYLOAD_SIZE + HASH_SIZE

/-! ## Flags - one packed byte (`struct Flags(pub u8)`).
The raw byte is modelled as a `Nat` (< 256 on the `u8` domain); each
operation is the corresponding mask/shift from the source. -/

namespace Flags

/-- `Flags::new()`: all bits cleared. -/
def new : Nat := 0

/-- `set_compression`: clear bits 0-2, write the compression code there. -/
def set_compression (f : Nat) (c : Compression) : Nat :=
  f &&& 0b11111000 ||| (c.to_u8 &&& 0b00000111)

/-- `compression`: decode bits 0-2, undefined patterns fall back to `None`. -/
def compression (f : Nat) : Compression :=
  (Compression.from_u8 (f &&& 0b00000111)).getD Compression.None

/-- `set_encryption`: clear bits 3-4, write the encryption code shifted left 3. -/
def set_encryption (f : Nat) (e : EncryptionLevel) : Nat :=
  f &&& 0b11100111 ||| ((e.to_u8 &&& 0b00000011) <<< 3)

/-- `encryption`: decode bits 3-4, undefined pattern falls back to `None`. -/
def encryption (f : Nat) : EncryptionLevel :=
  (EncryptionLevel.from_u8 ((f >>> 3) &&& 0b00000011)).getD EncryptionLevel.None

/-- `set_fragmented` (bit 5). -/
def set_fragmented (f : Nat) (b : Bool) : Nat :=
  if b then f ||| 0b00100000 else f &&& 0b11011111

/-- `is_fragmented` (bit 5). -/
def is_fragmented (f : Nat) : Bool := f &&& 0b00100000 ≠ 0

/-- `set_ack_required` (bit 6). -/
def set_ack_required (f : Nat) (b : Bool) : Nat :=
  if b then f ||| 0b01000000 else f &&& 0b10111111

/-- `ack_required` (bit 6). -/
def ack_required (f : Nat) : Bool := f &&& 0b01000000 ≠ 0

end Flags

/-! ## Packet (`packet.rs`).
`session_id` is the 16-byte `SessionId` (a `[u8; 16]` in the source),
`hash` the 32-byte digest (`[u8; 32]`); both are byte lists here, with their
fixed lengths carried as hypotheses where a claim needs them.  `sequence`
is `u32`, `timestamp` is `u64`, `priority` and `flags` are raw bytes. -/

structure Packet where
  version : Nat
  session_id : List Nat
  intent : Intent
  priority : Nat
  flags : Nat
  sequence : Nat
  timestamp : Nat
  payload : List Nat
  hash : List Nat
  deriving DecidableEq, Repr

namespace Packet

/-- `Packet::calculate_hash`: SHA-256 over every field except the hash, in
the order the source feeds the hasher: version, session id, intent,
priority, flags, sequence (4B BE), timestamp (8B BE), payload length
(4B BE, `as u32`), payload. -/
def calculate_hash (p : Packet) : List Nat :=
  sha256 ([p.version] ++ p.session_id ++ [p.intent.to_u8] ++ [p.priority] ++ [p.flags]
    ++ toBytesBE 4 p.sequence ++ toBytesBE 8 p.timestamp
    ++ toBytesBE 4 p.payload.length ++ p.payload)

/-- `Packet::verify`: recomputed hash equals the stored hash. -/
def verify (p : Packet) : Bool := p.calculate_hash == p.hash

/-- `Packet::to_bytes`: version, session id, intent, priority, flags,
sequence (4B BE), payload length (4B BE), timestamp (8B BE), payload, hash. -/
def to_bytes (p : Packet) : List Nat :=
  [p.version] ++ p.session_id ++ [p.intent.to_u8] ++ [p.priority] ++ [p.flags]
    ++ toBytesBE 4 p.sequence ++ toBytesBE 4 p.payload.length
    ++ toBytesBE 8 p.timestamp ++ p.payload ++ p.hash

/-- `Packet::size`. -/
def size (p : Packet) : Nat := HEADER_SIZE + p.payload.length + HASH_SIZE

end Packet

/-- `PacketError`: the decode/construction error taxonomy of the source. -/
inductive PacketError
  | TooSmall
  | TooLarge
  | UnsupportedVersion (v : Nat)
  | InvalidIntent (i : Nat)
  | LengthMismatch
  | InvalidHash
  deriving DecidableEq, Repr

instance : DecidableEq (Except PacketError Packet) := fun
  | .ok a, .ok b =>
    if h : a = b then .isTrue (by rw [h]) else .isFalse (by simp [h])
  | .error a, .error b =>
    if h : a = b then .isTrue (by rw [h]) else .isFalse (by simp [h])
  | .ok _, .error _ => .isFalse (by simp)
  | .error _, .ok _ => .isFalse (by simp)

/-- `&bytes[lo..hi]` followed by `copy_from_slice` into a `hi - lo` buffer:
`none` models the Rust panic on an out-of-range slice. -/
def readSlice (bytes : List Nat) (lo hi : Nat) : Option (List Nat) :=
  if lo ≤ hi ∧ hi ≤ bytes.length then some ((bytes.drop lo).take (hi - lo)) else none

/-- `Packet::from_bytes`.  The outer `Option` tracks memory safety: `none`
models a Rust panic from an out-of-bounds index or slice, `some` the
function's `Result`. -/
def Packet.from_bytes (bytes : List Nat) : Option (Except PacketError Packet) :=
  if bytes.length < MIN_PACKET_SIZE then some (Except.error PacketError.TooSmall)
  else if MAX_PACKET_SIZE < bytes.length then some (Except.error PacketError.TooLarge)
  else match bytes.get? 0 with
  | none => none
  | some version =>
    if version ≠ FDP_VERSION then some (Except.error (PacketError.UnsupportedVersion version))
    else match readSlice bytes 1 17 with
    | none => none
    | some session_id =>
      match bytes.get? 17 with
      | none => none
      | some intentByte =>
        match Intent.from_u8 intentByte with
        | none => some (Except.error (PacketError.InvalidIntent intentByte))
        | some intent =>
          match bytes.get? 18, bytes.get? 19 with
          | some priority, some flags =>
            match readSlice bytes 20 24, readSlice bytes 24 28, readSlice bytes 28 36 with
            | some seqBytes, some lenBytes, some timeBytes =>
              let sequence := fromBE seqBytes
              let payload_len := fromBE lenBytes
              let timestamp := fromBE timeBytes
              if bytes.length ≠ HEADER_SIZE + payload_len + HASH_SIZE then
                some (Except.error PacketError.LengthMismatch)
              else match readSlice bytes 36 (36 + payload_len) with
              | none => none
              | some payload =>
                let hashBytes := bytes.drop (36 + payload_len)
                if 36 + payload_len ≤ bytes.length ∧ hashBytes.length = 32 then
                  let packet : Packet :=
                    { version, session_id, intent, priority, flags,
                      sequence, timestamp, payload, hash := hashBytes }
                  if packet.verify then some (Except.ok packet)
                  else some (Except.error PacketError.InvalidHash)
                else none
            | _, _, _ => none
          | _, _ => none

/-! ## Byte-arithmetic lemmas -/

theorem fromBE_append_singleton (l : List Nat) (b : Nat) :
    fromBE (l ++ [b]) = fromBE l * 256 + b := by
  simp [fromBE, List.foldl_append]

theorem fromBE_toBytesBE (n x : Nat) : fromBE (toBytesBE n x) = x % 2 ^ (8 * n) := by
  induction n generalizing x with
  | zero => simp [toBytesBE, fromBE, Nat.mod_one]
  | succ m ih =>
    rw [toBytesBE, fromBE_append_singleton, ih, Nat.shiftRight_eq_div_pow]
    have h256 : (2 : Nat) ^ 8 = 256 := by norm_num
    calc x / 2 ^ 8 % 2 ^ (8 * m) * 256 + x % 256
        = x % 256 + 256 * (x / 256 % 2 ^ (8 * m)) := by rw [h256]; ring
      _ = x % (256 * 2 ^ (8 * m)) := Nat.mod_mul.symm
      _ = x % 2 ^ (8 * (m + 1)) := by
          rw [← h256, ← pow_add]
          ring_nf

theorem toBytesBE_fromBE (l : List Nat) (hb : ∀ x ∈ l, x < 256) :
    toBytesBE l.length (fromBE l) = l := by
  induction l using List.reverseRecOn with
  | nil => rfl
  | append_singleton A b ih =>
    have hblt : b < 256 := hb b (by simp)
    have hA : ∀ x ∈ A, x < 256 := fun x hx => hb x (by simp [hx])
    have hlen : (A ++ [b]).length = A.length + 1 := by simp
    rw [hlen, toBytesBE, fromBE_append_singleton, Nat.shiftRight_eq_div_pow]
    have hdiv : (fromBE A * 256 + b) / 2 ^ 8 = fromBE A := by
      have : (2 : Nat) ^ 8 = 256 := by norm_num
      rw [this]
      omega
    have hmod : (fromBE A * 256 + b) % 256 = b := by omega
    rw [hdiv, hmod, ih hA]

/-! ## Layout lemmas -/

theorem readSlice_eq (L : List Nat) (lo hi : Nat) (h1 : lo ≤ hi) (h2 : hi ≤ L.length) :
    readSlice L lo hi = some ((L.drop lo).take (hi - lo)) := by
  simp [readSlice, h1, h2]

theorem get?_eq_head_drop (L : List Nat) (i : Nat) : L.get? i = (L.drop i).get? 0 := by
  simp [List.get?_eq_getElem?, List.getElem?_drop]

/-! ## Vocabulary lemmas -/

theorem Intent.from_u8_to_u8 (i : Intent) : Intent.from_u8 i.to_u8 = some i := by
  cases i <;> rfl

theorem calculate_hash_set_hash (p : Packet) (h : List Nat) :
    Packet.calculate_hash { p with hash := h } = Packet.calculate_hash p := rfl

theorem to_bytes_length_eq (p : Packet) (hsid : p.session_id.length = 16)
    (hhash : p.hash.length = 32) :
    (Packet.to_bytes p).length = HEADER_SIZE + p.payload.length + HASH_SIZE := by
  simp [Packet.to_bytes, toBytesBE_length, hsid, hhash, HEADER_SIZE, HASH_SIZE]
  omega

/-! ## Decode of encode -/

/-- Decoding an encoded packet: all structural checks pass (given the Rust
type-level facts: 16-byte session id, 32-byte hash, in-range payload length,
`u32` sequence, `u64` timestamp, supported version) and the result is the
packet itself, or `InvalidHash` when its stored hash is stale. -/
theorem from_bytes_to_bytes (p : Packet)
    (hver : p.version = FDP_VERSION)
    (hsid : p.session_id.length = 16)
    (hhash : p.hash.length = 32)
    (hpay : p.payload.length ≤ MAX_PAYLOAD_SIZE)
    (hseq : p.sequence < 2 ^ 32)
    (hts : p.timestamp < 2 ^ 64) :
    Packet.from_bytes (Packet.to_bytes p)
      = some (if p.verify then Except.ok p else Except.error PacketError.InvalidHash) := by
  have hpay32 : p.payload.length ≤ 10485760 := by
    simpa [MAX_PAYLOAD_SIZE] using hpay
  have hL : Packet.to_bytes p
      = [p.version] ++ (p.session_id ++ ([p.intent.to_u8] ++ ([p.priority] ++ ([p.flags]
        ++ (toBytesBE 4 p.sequence ++ (toBytesBE 4 p.payload.length ++ (toBytesBE 8 p.timestamp
        ++ (p.payload ++ p.hash)))))))) := by
    simp [Packet.to_bytes, List.append_assoc]
  have hlen : (Packet.to_bytes p).length = 68 + p.payload.length := by
    have h := to_bytes_length_eq p hsid hhash
    simp only [HEADER_SIZE, HASH_SIZE] at h
    omega
  have d1 : (Packet.to_bytes p).drop 1
      = p.session_id ++ ([p.intent.to_u8] ++ ([p.priority] ++ ([p.flags]
        ++ (toBytesBE 4 p.sequence ++ (toBytesBE 4 p.payload.length ++ (toBytesBE 8 p.timestamp
        ++ (p.payload ++ p.hash))))))) := by
    rw [hL]; rfl
  have d17 : (Packet.to_bytes p).drop 17
      = [p.intent.to_u8] ++ ([p.priority] ++ ([p.flags]
        ++ (toBytesBE 4 p.sequence ++ (toBytesBE 4 p.payload.length ++ (toBytesBE 8 p.timestamp
        ++ (p.payload ++ p.hash)))))) := by
    rw [(by norm_num : (17 : Nat) = 1 + 16), ← List.drop_drop, d1, List.drop_left' hsid]
  have d18 : (Packet.to_bytes p).drop 18
      = [p.priority] ++ ([p.flags]
        ++ (toBytesBE 4 p.sequence ++ (toBytesBE 4 p.payload.length ++ (toBytesBE 8 p.timestamp
        ++ (p.payload ++ p.hash))))) := by
    rw [(by norm_num : (18 : Nat) = 17 + 1), ← List.drop_drop, d17]; rfl
  have d19 : (Packet.to_bytes p).drop 19
      = [p.flags] ++ (toBytesBE 4 p.sequence ++ (toBytesBE 4 p.payload.length
        ++ (toBytesBE 8 p.timestamp ++ (p.payload ++ p.hash)))) := by
    rw [(by norm_num : (19 : Nat) = 18 + 1), ← List.drop_drop, d18]; rfl
  have d20 : (Packet.to_bytes p).drop 20
      = toBytesBE 4 p.sequence ++ (toBytesBE 4 p.payload.length
        ++ (toBytesBE 8 p.timestamp ++ (p.payload ++ p.hash))) := by
    rw [(by norm_num : (20 : Nat) = 19 + 1), ← List.drop_drop, d19]; rfl
  have d24 : (Packet.to_bytes p).drop 24
      = toBytesBE 4 p.payload.length ++ (toBytesBE 8 p.timestamp ++ (p.payload ++ p.hash)) := by
    rw [(by norm_num : (24 : Nat) = 20 + 4), ← List.drop_drop, d20,
      List.drop_left' (toBytesBE_length 4 p.sequence)]
  have d28 : (Packet.to_bytes p).drop 28
      = toBytesBE 8 p.timestamp ++ (p.payload ++ p.hash) := by
    rw [(by norm_num : (28 : Nat) = 24 + 4), ← List.drop_drop, d24,
      List.drop_left' (toBytesBE_length 4 p.payload.length)]
  have d36 : (Packet.to_bytes p).drop 36 = p.payload ++ p.hash := by
    rw [(by norm_num : (36 : Nat) = 28 + 8), ← List.drop_drop, d28,
      List.drop_left' (toBytesBE_length 8 p.timestamp)]
  have d36n : (Packet.to_bytes p).drop (36 + p.payload.length) = p.hash := by
    rw [← List.drop_drop, d36, List.drop_left' rfl]
  have g0 : (Packet.to_bytes p).get? 0 = some p.version := by rw [hL]; rfl
  have g17 : (Packet.to_bytes p).get? 17 = some p.intent.to_u8 := by
    rw [get?_eq_head_drop, d17]; rfl
  have g18 : (Packet.to_bytes p).get? 18 = some p.priority := by
    rw [get?_eq_head_drop, d18]; rfl
  have g19 : (Packet.to_bytes p).get? 19 = some p.flags := by
    rw [get?_eq_head_drop, d19]; rfl
  have s1 : readSlice (Packet.to_bytes p) 1 17 = some p.session_id := by
    rw [readSlice_eq _ _ _ (by norm_num) (by omega)]
    rw [(by norm_num : (17 : Nat) - 1 = 16), d1, List.take_left' hsid]
  have s20 : readSlice (Packet.to_bytes p) 20 24 = some (toBytesBE 4 p.sequence) := by
    rw [readSlice_eq _ _ _ (by norm_num) (by omega)]
    rw [(by norm_num : (24 : Nat) - 20 = 4), d20,
      List.take_left' (toBytesBE_length 4 p.sequence)]
  have s24 : readSlice (Packet.to_bytes p) 24 28 = some (toBytesBE 4 p.payload.length) := by
    rw [readSlice_eq _ _ _ (by norm_num) (by omega)]
    rw [(by norm_num : (28 : Nat) - 24 = 4), d24,
      List.take_left' (toBytesBE_length 4 p.payload.length)]
  have s28 : readSlice (Packet.to_bytes p) 28 36 = some (toBytesBE 8 p.timestamp) := by
    rw [readSlice_eq _ _ _ (by norm_num) (by omega)]
    rw [(by norm_num : (36 : Nat) - 28 = 8), d28,
      List.take_left' (toBytesBE_length 8 p.timestamp)]
  have s36 : readSlice (Packet.to_bytes p) 36 (36 + p.payload.length) = some p.payload := by
    rw [readSlice_eq _ _ _ (by omega) (by omega)]
    rw [(by omega : 36 + p.payload.length - 36 = p.payload.length), d36,
      List.take_left' rfl]
  have e20 : fromBE (toBytesBE 4 p.sequence) = p.sequence := by
    rw [fromBE_toBytesBE]
    exact Nat.mod_eq_of_lt (by norm_num at hseq ⊢; omega)
  have e24 : fromBE (toBytesBE 4 p.payload.length) = p.payload.length := by
    rw [fromBE_toBytesBE]
    exact Nat.mod_eq_of_lt (by norm_num; omega)
  have e28 : fromBE (toBytesBE 8 p.timestamp) = p.timestamp := by
    rw [fromBE_toBytesBE]
    exact Nat.mod_eq_of_lt (by norm_num at hts ⊢; omega)
  have c1 : ¬ ((Packet.to_bytes p).length < MIN_PACKET_SIZE) := by
    simp only [MIN_PACKET_SIZE, HEADER_SIZE, HASH_SIZE, hlen]; omega
  have c2 : ¬ (MAX_PACKET_SIZE < (Packet.to_bytes p).length) := by
    simp only [MAX_PACKET_SIZE, MAX_PAYLOAD_SIZE, HEADER_SIZE, HASH_SIZE, hlen]; omega
  have cv : ¬ (p.version ≠ FDP_VERSION) := by simp [hver]
  have c3 : ¬ ((Packet.to_bytes p).length
      ≠ HEADER_SIZE + fromBE (toBytesBE 4 p.payload.length) + HASH_SIZE) := by
    simp only [HEADER_SIZE, HASH_SIZE, hlen, e24]; omega
  rw [Packet.from_bytes, if_neg c1, if_neg c2, g0]
  simp only [if_neg cv, s1, g17, Intent.from_u8_to_u8, g18, g19, s20, s24, s28,
    if_neg c3, s36, d36n, e20, e24, e28, hlen, hhash]
  simp only [(by omega : 36 + p.payload.length ≤ 68 + p.payload.length), and_true, if_pos,
    true_and]
  rw [if_neg (by simp only [HEADER_SIZE, HASH_SIZE]; omega :
    ¬ (68 + p.payload.length ≠ HEADER_SIZE + p.payload.length + HASH_SIZE))]
  show (if p.verify = true then some (Except.ok p) else some (Except.error PacketError.InvalidHash))
      = some (if p.verify = true then Except.ok p else Except.error PacketError.InvalidHash)
  cases p.verify <;> rfl

/-! ## Bit-range independence helpers -/

theorem and_mask_low3_eq (f g : Nat) (h : ∀ i, i < 3 → f.testBit i = g.testBit i) :
    f &&& 7 = g &&& 7 := by
  apply Nat.eq_of_testBit_eq
  intro j
  rw [Nat.testBit_land, Nat.testBit_land]
  by_cases hj : j < 3
  · rw [h j hj]
  · have h7 : (7 : Nat).testBit j = false :=
      Nat.testBit_lt_two_pow (lt_of_lt_of_le (show (7 : Nat) < 2 ^ 3 by norm_num)
        (Nat.pow_le_pow_right (by norm_num) (by omega : 3 ≤ j)))
    simp [h7]

theorem shift3_mask2_eq (f g : Nat) (h : ∀ i, 3 ≤ i → i < 5 → f.testBit i = g.testBit i) :
    (f >>> 3) &&& 3 = (g >>> 3) &&& 3 := by
  apply Nat.eq_of_testBit_eq
  intro j
  rw [Nat.testBit_land, Nat.testBit_land, Nat.testBit_shiftRight, Nat.testBit_shiftRight]
  by_cases hj : j < 2
  · rw [h (3 + j) (by omega) (by omega)]
  · have h3 : (3 : Nat).testBit j = false :=
      Nat.testBit_lt_two_pow (lt_of_lt_of_le (show (3 : Nat) < 2 ^ 2 by norm_num)
        (Nat.pow_le_pow_right (by norm_num) (by omega : 2 ≤ j)))
    simp [h3]

theorem and_single_bit_eq (f g k j0 : Nat) (hk : k = 2 ^ j0) (h : f.testBit j0 = g.testBit j0) :
    f &&& k = g &&& k := by
  subst hk
  apply Nat.eq_of_testBit_eq
  intro j
  rw [Nat.testBit_land, Nat.testBit_land, Nat.testBit_two_pow]
  by_cases hj : j0 = j
  · subst hj; rw [h]
  · simp [hj]

/-! ## Sample values used by witnesses -/

/-- A fixed 16-byte session id (16 zero bytes). -/
def sampleSessionId : List Nat := List.replicate 16 0

/-- A concrete packet carrying exactly the header values the source
constructor initializes (version 1, zero session id, `Ping`, priority 128,
flags byte 9 = Lz4 + ChaCha20), an empty payload, and an all-zero stored
hash - deliberately not the digest of its fields, since no source path ever
computes and stores the digest. -/
def samplePacket : Packet :=
  { version := 1, session_id := sampleSessionId, intent := Intent.Ping, priority := 128,
    flags := 9, sequence := 0, timestamp := 0, payload := [], hash := List.replicate 32 0 }

/-- The same concrete packet with timestamp 1, so that the timestamp bytes
and the payload-length bytes of the hash preimage differ. -/
def sampleTsOnePacket : Packet :=
  { version := 1, session_id := sampleSessionId, intent := Intent.Ping, priority := 128,
    flags := 9, sequence := 0, timestamp := 1, payload := [], hash := [] }

/-! ## Claims -/

/-- C1 (code bug): the source `Packet::new` (packet.rs:136-149) omits the
`payload` and `hash` fields from its struct literal and never returns the
packet, and no source path ever computes and stores the integrity hash
(`to_bytes` serializes `self.hash` as-is; `calculate_hash` is only called by
`verify`).  Evaluating the codec at the failing input: a packet carrying
exactly the header fields `new` initializes but whose stored hash was never
set to the digest (here 32 zero bytes) does not round-trip - decoding its
encoding is rejected with `InvalidHash` instead of succeeding, contradicting
the claim and the module's own `test_packet_roundtrip`. -/
theorem stale_hash_roundtrip_rejected :
    Packet.from_bytes (Packet.to_bytes samplePacket)
      = some (Except.error PacketError.InvalidHash) := by
  decide

/-- The hash preimage in wire-layout order, following the spec's words:
version, session id, intent, priority, flags, sequence, payload length,
timestamp, then payload. -/
def wireOrderHashInput (p : Packet) : List Nat :=
  [p.version] ++ p.session_id ++ [p.intent.to_u8] ++ [p.priority] ++ [p.flags]
    ++ toBytesBE 4 p.sequence ++ toBytesBE 4 p.payload.length ++ toBytesBE 8 p.timestamp
    ++ p.payload

/-- C2 counterexample: at a concrete packet (timestamp 1, empty payload) the
hash `calculate_hash` computes is not the digest of the wire-layout-order
preimage: the code hashes the timestamp before the payload length, while the
wire layout has the payload length first. -/
theorem calculate_hash_not_wire_order :
    Packet.calculate_hash sampleTsOnePacket
      ≠ sha256 (wireOrderHashInput sampleTsOnePacket) := by
  decide

/-- C2 amended: the integrity hash is the 32-byte SHA-256 digest over every
field except the hash itself, in the order version, session id, intent,
priority, flags, sequence, timestamp, payload length, payload (timestamp and
payload length swapped relative to the wire layout). -/
theorem calculate_hash_field_order (p : Packet) :
    Packet.calculate_hash p
      = sha256 ([p.version] ++ p.session_id ++ [p.intent.to_u8] ++ [p.priority] ++ [p.flags]
        ++ toBytesBE 4 p.sequence ++ toBytesBE 8 p.timestamp ++ toBytesBE 4 p.payload.length
        ++ p.payload)
    ∧ (Packet.calculate_hash p).length = 32 :=
  ⟨rfl, sha256_length _⟩

/-- C3 (code bug): the program has no construction-time `PayloadTooLarge`
error.  The error enum of the source has exactly the six decode-time
variants (exhaustive case analysis), and over-maximum data is rejected only
when decoded, as `TooLarge`: a buffer one byte longer than the
36 + 10,485,760 + 32 byte maximum decodes to `TooLarge`.  The source
`Packet::new` (packet.rs:136-149) contains no size check and is itself
unfinished (its struct literal omits fields and nothing is returned), so the
spec's construction-time rejection does not exist in the code. -/
theorem no_construction_payload_error :
    (∀ e : PacketError, e = PacketError.TooSmall ∨ e = PacketError.TooLarge
      ∨ (∃ v, e = PacketError.UnsupportedVersion v)
      ∨ (∃ i, e = PacketError.InvalidIntent i)
      ∨ e = PacketError.LengthMismatch ∨ e = PacketError.InvalidHash)
    ∧ Packet.from_bytes (List.replicate (MAX_PACKET_SIZE + 1) 0)
      = some (Except.error PacketError.TooLarge) := by
  constructor
  · intro e
    cases e with
    | TooSmall => exact Or.inl rfl
    | TooLarge => exact Or.inr (Or.inl rfl)
    | UnsupportedVersion v => exact Or.inr (Or.inr (Or.inl ⟨v, rfl⟩))
    | InvalidIntent i => exact Or.inr (Or.inr (Or.inr (Or.inl ⟨i, rfl⟩)))
    | LengthMismatch => exact Or.inr (Or.inr (Or.inr (Or.inr (Or.inl rfl))))
    | InvalidHash => exact Or.inr (Or.inr (Or.inr (Or.inr (Or.inr rfl))))
  · rw [Packet.from_bytes,
      if_neg (show ¬ (List.replicate (MAX_PACKET_SIZE + 1) (0 : Nat)).length < MIN_PACKET_SIZE by
        simp only [List.length_replicate, MIN_PACKET_SIZE, MAX_PACKET_SIZE, HEADER_SIZE,
          HASH_SIZE, MAX_PAYLOAD_SIZE]
        omega),
      if_pos (show MAX_PACKET_SIZE < (List.replicate (MAX_PACKET_SIZE + 1) (0 : Nat)).length by
        simp only [List.length_replicate]
        omega)]

/-- C6: encoding is total and `Packet::to_bytes p` has length exactly
`36 + p.payload.length + 32` (the session id and hash having their Rust
type-level lengths 16 and 32). -/
theorem to_bytes_exact_size (p : Packet) (hsid : p.session_id.length = 16)
    (hhash : p.hash.length = 32) :
    (Packet.to_bytes p).length = 36 + p.payload.length + 32 := by
  have h := to_bytes_length_eq p hsid hhash
  simpa [HEADER_SIZE, HASH_SIZE] using h

/-- C6 witness: the exact size at a concrete packet with empty payload. -/
theorem to_bytes_exact_size_witness :
    samplePacket.session_id.length = 16 ∧ samplePacket.hash.length = 32
    ∧ (Packet.to_bytes samplePacket).length = 36 + samplePacket.payload.length + 32 :=
  ⟨by decide, by decide, to_bytes_exact_size samplePacket (by decide) (by decide)⟩

/-- C7: each Flags setter modifies only its own bit range (compression bits
0-2, encryption bits 3-4, fragmented bit 5, ack-required bit 6) and leaves
every other bit of the byte, including reserved bit 7, unchanged; and each
getter depends only on its own bit range. -/
theorem flags_frame_effect :
    (∀ f : Fin 256, ∀ c : Compression, ∀ i : Fin 8, 3 ≤ i.val →
      Nat.testBit (Flags.set_compression f.val c) i.val = Nat.testBit f.val i.val)
  ∧ (∀ f : Fin 256, ∀ e : EncryptionLevel, ∀ i : Fin 8, i.val < 3 ∨ 5 ≤ i.val →
      Nat.testBit (Flags.set_encryption f.val e) i.val = Nat.testBit f.val i.val)
  ∧ (∀ f : Fin 256, ∀ b : Bool, ∀ i : Fin 8, i.val ≠ 5 →
      Nat.testBit (Flags.set_fragmented f.val b) i.val = Nat.testBit f.val i.val)
  ∧ (∀ f : Fin 256, ∀ b : Bool, ∀ i : Fin 8, i.val ≠ 6 →
      Nat.testBit (Flags.set_ack_required f.val b) i.val = Nat.testBit f.val i.val)
  ∧ (∀ f g : Nat, (∀ i, i < 3 → f.testBit i = g.testBit i) →
      Flags.compression f = Flags.compression g)
  ∧ (∀ f g : Nat, (∀ i, 3 ≤ i → i < 5 → f.testBit i = g.testBit i) →
      Flags.encryption f = Flags.encryption g)
  ∧ (∀ f g : Nat, f.testBit 5 = g.testBit 5 →
      Flags.is_fragmented f = Flags.is_fragmented g)
  ∧ (∀ f g : Nat, f.testBit 6 = g.testBit 6 →
      Flags.ack_required f = Flags.ack_required g) := by
  refine ⟨by decide, by decide, by decide, by decide, ?_, ?_, ?_, ?_⟩
  · intro f g h
    unfold Flags.compression
    rw [and_mask_low3_eq f g h]
  · intro f g h
    unfold Flags.encryption
    rw [shift3_mask2_eq f g h]
  · intro f g h
    unfold Flags.is_fragmented
    rw [and_single_bit_eq f g 32 5 (by norm_num) h]
  · intro f g h
    unfold Flags.ack_required
    rw [and_single_bit_eq f g 64 6 (by norm_num) h]

/-- C7 witness: each part of the frame-effect theorem at concrete bytes
(`0xAA` has reserved bit 7 set; the getter pairs agree on the relevant bit
range and differ everywhere else). -/
theorem flags_frame_effect_witness :
    (Nat.testBit (Flags.set_compression 0xAA Compression.Brotli) 7 = Nat.testBit 0xAA 7)
  ∧ (Nat.testBit (Flags.set_encryption 0xAA EncryptionLevel.Aes256) 7 = Nat.testBit 0xAA 7)
  ∧ (Nat.testBit (Flags.set_fragmented 0xAA true) 7 = Nat.testBit 0xAA 7)
  ∧ (Nat.testBit (Flags.set_ack_required 0xAA true) 7 = Nat.testBit 0xAA 7)
  ∧ Flags.compression 0x02 = Flags.compression 0xFA
  ∧ Flags.encryption 0x08 = Flags.encryption 0xEF
  ∧ Flags.is_fragmented 0x20 = Flags.is_fragmented 0xBF
  ∧ Flags.ack_required 0x40 = Flags.ack_required 0xDF :=
  ⟨flags_frame_effect.1 ⟨0xAA, by norm_num⟩ Compression.Brotli ⟨7, by norm_num⟩ (by norm_num),
   flags_frame_effect.2.1 ⟨0xAA, by norm_num⟩ EncryptionLevel.Aes256 ⟨7, by norm_num⟩
     (Or.inr (by norm_num)),
   flags_frame_effect.2.2.1 ⟨0xAA, by norm_num⟩ true ⟨7, by norm_num⟩ (by norm_num),
   flags_frame_effect.2.2.2.1 ⟨0xAA, by norm_num⟩ true ⟨7, by norm_num⟩ (by norm_num),
   flags_frame_effect.2.2.2.2.1 0x02 0xFA (fun i hi => by interval_cases i <;> rfl),
   flags_frame_effect.2.2.2.2.2.1 0x08 0xEF (fun i h1 h2 => by interval_cases i <;> rfl),
   flags_frame_effect.2.2.2.2.2.2.1 0x20 0xBF rfl,
   flags_frame_effect.2.2.2.2.2.2.2 0x40 0xDF rfl⟩

/-- C8: every flags byte whose compression sub-field (bits 0-2) holds one of
the undefined patterns 4-7 decodes to `Compression::None`, and every flags
byte whose encryption sub-field (bits 3-4) holds the undefined pattern 3
decodes to `EncryptionLevel::None`; neither getter can fail. -/
theorem flags_undefined_patterns :
    (∀ f : Fin 256, 4 ≤ f.val &&& 0b00000111 → Flags.compression f.val = Compression.None)
  ∧ (∀ f : Fin 256, (f.val >>> 3) &&& 0b00000011 = 3 →
      Flags.encryption f.val = EncryptionLevel.None) := by
  decide

/-- C8 witness: pattern 4 in the compression bits and pattern 3 in the
encryption bits both decode to `None`. -/
theorem flags_undefined_patterns_witness :
    Flags.compression 0b00000100 = Compression.None
    ∧ Flags.encryption 0b00011000 = EncryptionLevel.None :=
  ⟨flags_undefined_patterns.1 ⟨0b00000100, by norm_num⟩ (by decide),
   flags_undefined_patterns.2 ⟨0b00011000, by norm_num⟩ (by decide)⟩

/-- C9: `Intent::to_u8` and `Intent::from_u8` are mutually inverse on the
defined domain, and `from_u8` returns `none` on every byte outside the
defined code set. -/
theorem intent_code_partial_bijection :
    (∀ i : Intent, Intent.from_u8 i.to_u8 = some i)
  ∧ (∀ b : Fin 256, ∀ i : Intent, Intent.from_u8 b.val = some i → Intent.to_u8 i = b.val)
  ∧ (∀ b : Fin 256, (∀ i : Intent, Intent.to_u8 i ≠ b.val) → Intent.from_u8 b.val = none) := by
  decide

/-- C9 witness: the inverse laws at concrete values (`Search` ↔ `0x10`, and
the undefined byte `0xFF` maps to `none`). -/
theorem intent_code_partial_bijection_witness :
    Intent.from_u8 (Intent.to_u8 Intent.Search) = some Intent.Search
    ∧ Intent.to_u8 Intent.Search = 0x10
    ∧ Intent.from_u8 0xFF = none :=
  ⟨intent_code_partial_bijection.1 Intent.Search,
   intent_code_partial_bijection.2.1 ⟨0x10, by norm_num⟩ Intent.Search (by decide),
   intent_code_partial_bijection.2.2 ⟨0xFF, by norm_num⟩ (by decide)⟩

/-! ## The ordered decode cascade (C4) -/

/-- In-bounds list indexing never fails. -/
theorem get?_eq_getD (L : List Nat) (i : Nat) (h : i < L.length) :
    L.get? i = some (L.getD i 0) := by
  simp [List.get?_eq_getElem?, List.getD_eq_getElem?_getD, List.getElem?_eq_getElem h]

/-- The decode contract in the spec's words: reject in the fixed order
TooSmall (length < 68), TooLarge (length > 36 + 10,485,760 + 32),
UnsupportedVersion (byte 0 not the supported version), InvalidIntent (byte 17
not a defined code), LengthMismatch (declared payload length inconsistent
with the actual input length), InvalidHash (recomputed hash differs from the
trailing 32 bytes); on success return the fully populated packet. -/
def decodeOrdered (b : List Nat) : Except PacketError Packet :=
  if b.length < 68 then Except.error PacketError.TooSmall
  else if 36 + 10485760 + 32 < b.length then Except.error PacketError.TooLarge
  else if b.getD 0 0 ≠ 1 then Except.error (PacketError.UnsupportedVersion (b.getD 0 0))
  else
    match Intent.from_u8 (b.getD 17 0) with
    | none => Except.error (PacketError.InvalidIntent (b.getD 17 0))
    | some intent =>
      let payload_len := fromBE ((b.drop 24).take 4)
      if b.length ≠ 36 + payload_len + 32 then Except.error PacketError.LengthMismatch
      else
        let p : Packet :=
          { version := b.getD 0 0, session_id := (b.drop 1).take 16, intent := intent,
            priority := b.getD 18 0, flags := b.getD 19 0,
            sequence := fromBE ((b.drop 20).take 4),
            timestamp := fromBE ((b.drop 28).take 8),
            payload := (b.drop 36).take payload_len,
            hash := b.drop (36 + payload_len) }
        if Packet.calculate_hash p ≠ p.hash then Except.error PacketError.InvalidHash
        else Except.ok p

theorem from_bytes_eq_ordered (b : List Nat) :
    Packet.from_bytes b = some (decodeOrdered b) := by
  unfold Packet.from_bytes decodeOrdered
  simp only [MIN_PACKET_SIZE, MAX_PACKET_SIZE, HEADER_SIZE, HASH_SIZE, MAX_PAYLOAD_SIZE,
    Nat.reduceAdd]
  by_cases h1 : b.length < 68
  · rw [if_pos h1, if_pos h1]
  rw [if_neg h1, if_neg h1]
  by_cases h2 : 36 + 10485760 + 32 < b.length
  · rw [if_pos h2, if_pos h2]
  rw [if_neg h2, if_neg h2]
  have g0 : b.get? 0 = some (b.getD 0 0) := get?_eq_getD b 0 (by omega)
  have g17 : b.get? 17 = some (b.getD 17 0) := get?_eq_getD b 17 (by omega)
  have g18 : b.get? 18 = some (b.getD 18 0) := get?_eq_getD b 18 (by omega)
  have g19 : b.get? 19 = some (b.getD 19 0) := get?_eq_getD b 19 (by omega)
  have s1 : readSlice b 1 17 = some ((b.drop 1).take 16) := by
    rw [readSlice_eq b 1 17 (by norm_num) (by omega)]
  have s20 : readSlice b 20 24 = some ((b.drop 20).take 4) := by
    rw [readSlice_eq b 20 24 (by norm_num) (by omega)]
  have s24 : readSlice b 24 28 = some ((b.drop 24).take 4) := by
    rw [readSlice_eq b 24 28 (by norm_num) (by omega)]
  have s28 : readSlice b 28 36 = some ((b.drop 28).take 8) := by
    rw [readSlice_eq b 28 36 (by norm_num) (by omega)]
  rw [g0, s1, g17, g18, g19, s20, s24, s28]
  simp only [FDP_VERSION]
  by_cases h3 : b.getD 0 0 ≠ 1
  · rw [if_pos h3, if_pos h3]
  rw [if_neg h3, if_neg h3]
  cases hI : Intent.from_u8 (b.getD 17 0) with
  | none => rfl
  | some intent =>
    simp only []
    by_cases h4 : b.length ≠ 36 + fromBE ((b.drop 24).take 4) + 32
    · rw [if_pos h4, if_pos h4]
    rw [if_neg h4, if_neg h4]
    have s36 : readSlice b 36 (36 + fromBE ((b.drop 24).take 4))
        = some ((b.drop 36).take (fromBE ((b.drop 24).take 4))) := by
      rw [readSlice_eq b 36 (36 + fromBE ((b.drop 24).take 4)) (by omega) (by omega),
        (by omega : 36 + fromBE ((b.drop 24).take 4) - 36 = fromBE ((b.drop 24).take 4))]
    rw [s36]
    simp only []
    have c5 : 36 + fromBE ((b.drop 24).take 4) ≤ b.length := by omega
    have c6 : (b.drop (36 + fromBE ((b.drop 24).take 4))).length = 32 := by
      rw [List.length_drop]; omega
    rw [if_pos (And.intro c5 c6)]
    by_cases hv : Packet.calculate_hash
        { version := b.getD 0 0, session_id := (b.drop 1).take 16, intent := intent,
          priority := b.getD 18 0, flags := b.getD 19 0,
          sequence := fromBE ((b.drop 20).take 4),
          timestamp := fromBE ((b.drop 28).take 8),
          payload := (b.drop 36).take (fromBE ((b.drop 24).take 4)),
          hash := b.drop (36 + fromBE ((b.drop 24).take 4)) }
        = b.drop (36 + fromBE ((b.drop 24).take 4))
    · simp only [Packet.verify, beq_iff_eq]
      rw [if_pos hv, if_neg (fun hne => hne hv)]
    · simp only [Packet.verify, beq_iff_eq]
      rw [if_neg hv, if_pos hv]


/-- C4: on every input byte sequence, `Packet::from_bytes` never reads out of
bounds (the memory-safety layer is never `none`) and returns exactly the
result of the ordered check cascade TooSmall (length < 68), TooLarge
(length > 36 + 10,485,760 + 32), UnsupportedVersion (byte 0), InvalidIntent
(byte 17), LengthMismatch (declared vs actual length), InvalidHash
(recomputed vs trailing 32 bytes) - the earliest applicable failure. -/
theorem from_bytes_check_order (b : List Nat) :
    Packet.from_bytes b = some (decodeOrdered b) ∧ Packet.from_bytes b ≠ none :=
  ⟨from_bytes_eq_ordered b, by rw [from_bytes_eq_ordered b]; simp⟩

/-! ## Decode-encode identity (C10) -/

theorem take_drop_concat (b : List Nat) (i j : Nat) :
    (b.drop i).take j ++ b.drop (i + j) = b.drop i := by
  rw [← List.drop_drop j i b]
  exact List.take_append_drop j (b.drop i)

theorem cons_getD_drop (b : List Nat) (i : Nat) (h : i < b.length) :
    b.getD i 0 :: b.drop (i + 1) = b.drop i := by
  rw [List.drop_eq_getElem_cons h]
  congr 1
  rw [List.getD_eq_getElem?_getD, List.getElem?_eq_getElem h]
  rfl

theorem Intent.to_u8_from_u8 (x : Nat) (i : Intent) (h : Intent.from_u8 x = some i) :
    Intent.to_u8 i = x := by
  unfold Intent.from_u8 at h
  split at h <;> cases h <;> rfl

theorem toBytesBE_fromBE_slice (b : List Nat) (hb : ∀ x ∈ b, x < 256) (lo k : Nat)
    (h : lo + k ≤ b.length) :
    toBytesBE k (fromBE ((b.drop lo).take k)) = (b.drop lo).take k := by
  have hlenk : ((b.drop lo).take k).length = k := by
    simp [List.length_take, List.length_drop]
    omega
  have hbs : ∀ x ∈ (b.drop lo).take k, x < 256 := fun x hx =>
    hb x (List.mem_of_mem_drop (List.mem_of_mem_take hx))
  calc toBytesBE k (fromBE ((b.drop lo).take k))
      = toBytesBE ((b.drop lo).take k).length (fromBE ((b.drop lo).take k)) := by rw [hlenk]
    _ = (b.drop lo).take k := toBytesBE_fromBE _ hbs

/-- C10: every byte sequence that `Packet::from_bytes` accepts is reproduced
exactly by re-encoding the decoded packet; in particular the raw priority and
flags bytes (reserved bit 7 and undefined sub-field patterns included) and
the stored 32-byte hash survive decoding verbatim. -/
theorem decode_encode_identity (b : List Nat) (p : Packet)
    (hb : ∀ x ∈ b, x < 256)
    (hok : Packet.from_bytes b = some (Except.ok p)) :
    Packet.to_bytes p = b := by
  rw [from_bytes_eq_ordered b] at hok
  have hd : decodeOrdered b = Except.ok p := by
    injection hok
  clear hok
  unfold decodeOrdered at hd
  simp only [] at hd
  by_cases h1 : b.length < 68
  · rw [if_pos h1] at hd; cases hd
  rw [if_neg h1] at hd
  by_cases h2 : 36 + 10485760 + 32 < b.length
  · rw [if_pos h2] at hd; cases hd
  rw [if_neg h2] at hd
  by_cases h3 : b.getD 0 0 ≠ 1
  · rw [if_pos h3] at hd; cases hd
  rw [if_neg h3] at hd
  cases hI : Intent.from_u8 (b.getD 17 0) with
  | none =>
    rw [hI] at hd
    simp only [] at hd
    cases hd
  | some intent =>
    rw [hI] at hd
    simp only [] at hd
    by_cases h4 : b.length ≠ 36 + fromBE ((b.drop 24).take 4) + 32
    · rw [if_pos h4] at hd; cases hd
    rw [if_neg h4] at hd
    have hlen : b.length = 36 + fromBE ((b.drop 24).take 4) + 32 := by omega
    by_cases hv : Packet.calculate_hash
        { version := b.getD 0 0, session_id := (b.drop 1).take 16, intent := intent,
          priority := b.getD 18 0, flags := b.getD 19 0,
          sequence := fromBE ((b.drop 20).take 4),
          timestamp := fromBE ((b.drop 28).take 8),
          payload := (b.drop 36).take (fromBE ((b.drop 24).take 4)),
          hash := b.drop (36 + fromBE ((b.drop 24).take 4)) }
        ≠ b.drop (36 + fromBE ((b.drop 24).take 4))
    · rw [if_pos hv] at hd; cases hd
    rw [if_neg hv] at hd
    have hp : p
        = { version := b.getD 0 0, session_id := (b.drop 1).take 16, intent := intent,
            priority := b.getD 18 0, flags := b.getD 19 0,
            sequence := fromBE ((b.drop 20).take 4),
            timestamp := fromBE ((b.drop 28).take 8),
            payload := (b.drop 36).take (fromBE ((b.drop 24).take 4)),
            hash := b.drop (36 + fromBE ((b.drop 24).take 4)) } := by
      injection hd with h
      exact h.symm
    subst hp
    have hi : Intent.to_u8 intent = b.getD 17 0 := Intent.to_u8_from_u8 _ _ hI
    have hplen : ((b.drop 36).take (fromBE ((b.drop 24).take 4))).length
        = fromBE ((b.drop 24).take 4) := by
      simp [List.length_take, List.length_drop]
      omega
    have ht20 : toBytesBE 4 (fromBE ((b.drop 20).take 4)) = (b.drop 20).take 4 :=
      toBytesBE_fromBE_slice b hb 20 4 (by omega)
    have ht24 : toBytesBE 4 (fromBE ((b.drop 24).take 4)) = (b.drop 24).take 4 :=
      toBytesBE_fromBE_slice b hb 24 4 (by omega)
    have ht28 : toBytesBE 8 (fromBE ((b.drop 28).take 8)) = (b.drop 28).take 8 :=
      toBytesBE_fromBE_slice b hb 28 8 (by omega)
    have r36 : (b.drop 36).take (fromBE ((b.drop 24).take 4))
        ++ b.drop (36 + fromBE ((b.drop 24).take 4)) = b.drop 36 :=
      take_drop_concat b 36 (fromBE ((b.drop 24).take 4))
    have r28 : (b.drop 28).take 8 ++ b.drop 36 = b.drop 28 := by
      have h := take_drop_concat b 28 8
      rwa [(by norm_num : (28 : Nat) + 8 = 36)] at h
    have r24 : (b.drop 24).take 4 ++ b.drop 28 = b.drop 24 := by
      have h := take_drop_concat b 24 4
      rwa [(by norm_num : (24 : Nat) + 4 = 28)] at h
    have r20 : (b.drop 20).take 4 ++ b.drop 24 = b.drop 20 := by
      have h := take_drop_concat b 20 4
      rwa [(by norm_num : (20 : Nat) + 4 = 24)] at h
    have r19 : b.getD 19 0 :: b.drop 20 = b.drop 19 := by
      have h := cons_getD_drop b 19 (by omega)
      rwa [(by norm_num : (19 : Nat) + 1 = 20)] at h
    have r18 : b.getD 18 0 :: b.drop 19 = b.drop 18 := by
      have h := cons_getD_drop b 18 (by omega)
      rwa [(by norm_num : (18 : Nat) + 1 = 19)] at h
    have r17 : b.getD 17 0 :: b.drop 18 = b.drop 17 := by
      have h := cons_getD_drop b 17 (by omega)
      rwa [(by norm_num : (17 : Nat) + 1 = 18)] at h
    have r1 : (b.drop 1).take 16 ++ b.drop 17 = b.drop 1 := by
      have h := take_drop_concat b 1 16
      rwa [(by norm_num : (1 : Nat) + 16 = 17)] at h
    have r0 : b.getD 0 0 :: b.drop 1 = b := by
      have h := cons_getD_drop b 0 (by omega)
      rwa [(by norm_num : (0 : Nat) + 1 = 1), List.drop_zero] at h
    unfold Packet.to_bytes
    simp only []
    rw [hi, hplen, ht20, ht24, ht28]
    conv_rhs => rw [← r0, ← r1, ← r17, ← r18, ← r19, ← r20, ← r24, ← r28, ← r36]
    simp [List.append_assoc]


/-- A concrete valid 68-byte wire packet: zero session id, `Ping`, empty
payload, timestamp 0, with its correct SHA-256 digest as the trailing
32 bytes. -/
def sampleWire : List Nat :=
  [1, 0, 0, 0, 0, 0, 0, 0, 0, 0, 0, 0, 0, 0, 0, 0, 0, 1, 128, 9,
   0, 0, 0, 0, 0, 0, 0, 0, 0, 0, 0, 0, 0, 0, 0, 0,
   141, 117, 181, 80, 96, 171, 108, 197, 192, 196, 98, 231, 107, 28, 71, 82,
   31, 247, 180, 38, 161, 224, 191, 220, 219, 82, 171, 45, 148, 78, 159, 173]

/-- The packet that `sampleWire` decodes to. -/
def sampleWirePacket : Packet :=
  { version := 1, session_id := List.replicate 16 0, intent := Intent.Ping, priority := 128,
    flags := 9, sequence := 0, timestamp := 0, payload := [],
    hash := [141, 117, 181, 80, 96, 171, 108, 197, 192, 196, 98, 231, 107, 28, 71, 82,
      31, 247, 180, 38, 161, 224, 191, 220, 219, 82, 171, 45, 148, 78, 159, 173] }

/-- C10 witness: the identity at the concrete wire packet `sampleWire`. -/
theorem decode_encode_identity_witness :
    (∀ x ∈ sampleWire, x < 256)
    ∧ Packet.from_bytes sampleWire = some (Except.ok sampleWirePacket)
    ∧ Packet.to_bytes sampleWirePacket = sampleWire :=
  ⟨by decide, by decide,
   decode_encode_identity sampleWire sampleWirePacket (by decide) (by decide)⟩

end FDP
